import Mathlib

/-!
Verification of the connection and command-dispatch layer of the Tauri MCP
bridge server.

The embedding below translates the three driver modules —
`packages/mcp-server/src/driver/plugin-client.ts`,
`packages/mcp-server/src/driver/session-manager.ts` and
`packages/mcp-server/src/driver/app-discovery.ts` — together with the
configuration helpers of `config.ts` into pure Lean definitions.  Stateful
TypeScript code becomes explicit state passing: every event handler or method
is a function from the relevant state to a new state together with a record of
the observable effects it performs (promise settlements, timer installations,
scheduled reconnects, emitted events, connection attempts).  Timers live in
the JavaScript runtime, so a `setTimeout` is modelled as an effect naming the
captured values, and the timer callback is a separate transition taking those
captured values as arguments.
-/

namespace TauriMcp

/-! ## Wire messages (plugin-client.ts, PluginCommand / PluginResponse)

An inbound WebSocket payload is `JSON.parse`d inside a try/catch; a payload
that fails to parse is modelled by `InboundData.malformed`.  A parsed message
carries the fields of `PluginResponse`; `id` is optional. -/

structure WireMsg where
  id : Option String
  success : Bool
  data : Option String
  error : Option String
deriving DecidableEq, Repr

inductive InboundData where
  | malformed
  | parsed (m : WireMsg)
deriving DecidableEq, Repr

/-- A promise settlement performed by the client on behalf of a caller.
Callers are identified by a tag (`Nat`); the `resolve`/`reject` continuations
stored in a `PendingRequest` are identified by the tag of the call that
registered them. -/
inductive Settlement where
  | resolved (caller : Nat) (resp : WireMsg)
  | rejected (caller : Nat) (errMsg : String)
deriving DecidableEq, Repr

/-! ## The pending-request map

`PluginClient._pendingRequests` is a JavaScript `Map` from request id to
`{resolve, reject, timeout}`.  We embed it as an association list from id to
caller tag; a `Map` holds at most one entry per key, which `setId` preserves. -/

def hasId (pending : List (String × Nat)) (i : String) : Bool :=
  pending.any (fun e => e.1 = i)

def lookupId (pending : List (String × Nat)) (i : String) : Option Nat :=
  (pending.find? (fun e => e.1 = i)).map (fun e => e.2)

def removeId (pending : List (String × Nat)) (i : String) : List (String × Nat) :=
  pending.filter (fun e => e.1 ≠ i)

def setId (pending : List (String × Nat)) (i : String) (c : Nat) : List (String × Nat) :=
  removeId pending i ++ [(i, c)]

/-! ## Client state (plugin-client.ts, class PluginClient)

`_ws` is `null` or a socket whose `readyState` is one of the four WebSocket
states; `_reconnectAttempts` and `_pendingRequests` are the mutable fields the
claims are about.  `_url` is derived from `_host` and `_port` by
`buildWebSocketURL` and carries no extra information, so it is not repeated. -/

inductive WSReadyState where
  | Connecting
  | Open
  | Closing
  | Closed
deriving DecidableEq, Repr

structure ClientState where
  ws : Option WSReadyState
  host : String
  port : Nat
  reconnectAttempts : Nat
  pending : List (String × Nat)
deriving DecidableEq, Repr

/-- Constant `_maxReconnectAttempts = 5` of plugin-client.ts. -/
def maxReconnectAttempts : Nat := 5

/-- Constructor `new PluginClient(host, port)`: fields start out null / 0 / empty. -/
def newClient (host : String) (port : Nat) : ClientState :=
  { ws := none, host := host, port := port, reconnectAttempts := 0, pending := [] }

/-- Method `isConnected()`: `this._ws?.readyState === WebSocket.OPEN`. -/
def ClientState.isConnected (s : ClientState) : Bool :=
  s.ws = some WSReadyState.Open

/-- Effects of the `close` handler installed by `connect()`. -/
structure CloseOutput where
  emittedDisconnected : Bool
  settlements : List Settlement
  reconnectDelayMs : Option Nat
deriving DecidableEq, Repr

/-- The `close` handler of plugin-client.ts: emit `disconnected`, null out
`_ws`, and if `_reconnectAttempts < _maxReconnectAttempts` increment the
counter and `setTimeout` a reconnect after `1000 * _reconnectAttempts` ms
(the value after the increment).  The handler body touches no pending
request, so `settlements` is always empty. -/
def onClose (s : ClientState) : ClientState × CloseOutput :=
  let s1 : ClientState := { s with ws := none }
  if s1.reconnectAttempts < maxReconnectAttempts then
    ({ s1 with reconnectAttempts := s1.reconnectAttempts + 1 },
     { emittedDisconnected := true, settlements := [],
       reconnectDelayMs := some (1000 * (s1.reconnectAttempts + 1)) })
  else
    (s1, { emittedDisconnected := true, settlements := [], reconnectDelayMs := none })

/-- The `open` handler of `connect()`: the socket is now open and
`_reconnectAttempts` is reset to 0. -/
def onOpen (s : ClientState) : ClientState :=
  { s with ws := some WSReadyState.Open, reconnectAttempts := 0 }

/-- Effects of the `message` handler installed by `connect()`. -/
structure MessageOutput where
  settlements : List Settlement
  events : List WireMsg
  clearedTimers : List String
deriving DecidableEq, Repr

/-- The `message` handler of plugin-client.ts.  A payload that fails
`JSON.parse` is swallowed by the catch.  If `message.id` is truthy (present
and nonempty) and `_pendingRequests.has(message.id)`, the entry is fetched,
its timer cleared, the entry deleted and the promise resolved with the whole
message; otherwise the message is emitted as a broadcast `event`. -/
def onMessage (pending : List (String × Nat)) (d : InboundData) :
    List (String × Nat) × MessageOutput :=
  match d with
  | InboundData.malformed => (pending, { settlements := [], events := [], clearedTimers := [] })
  | InboundData.parsed m =>
    match m.id with
    | some i =>
      if i ≠ "" ∧ hasId pending i then
        match lookupId pending i with
        | some c =>
          (removeId pending i,
           { settlements := [Settlement.resolved c m], events := [], clearedTimers := [i] })
        | none => (pending, { settlements := [], events := [], clearedTimers := [] })
      else
        (pending, { settlements := [], events := [m], clearedTimers := [] })
    | none => (pending, { settlements := [], events := [m], clearedTimers := [] })

/-- Deliver a sequence of inbound payloads through the `message` handler,
collecting the settlements in order. -/
def runMessages (pending : List (String × Nat)) (ds : List InboundData) :
    List (String × Nat) × List Settlement :=
  match ds with
  | [] => (pending, [])
  | d :: rest =>
    let step := onMessage pending d
    let tail := runMessages step.1 rest
    (tail.1, step.2.settlements ++ tail.2)

/-- Effects of a `sendCommand` call. -/
structure SendEffect where
  threw : Option String
  timerSet : Option (String × Nat)
  wroteId : Option String
  settlements : List Settlement
  clearedTimers : List String
deriving DecidableEq, Repr

/-- Method `sendCommand(command, timeoutMs = 5000)` of plugin-client.ts.  The id
`req_${Date.now()}_${random}` is nondeterministic, so the generated id is a
parameter `genId`; the caller tag identifies the promise being created.  The
`ws.send` completion callback may report a write error, modelled by the
`writeErr` parameter: on a write error the timer is cleared, the entry
deleted and the promise rejected with that error. -/
def sendCommand (s : ClientState) (caller : Nat) (genId : String)
    (timeoutMs : Nat) (writeErr : Option String) : ClientState × SendEffect :=
  if ¬ s.isConnected then
    (s, { threw := some "Not connected to plugin", timerSet := none, wroteId := none,
          settlements := [], clearedTimers := [] })
  else
    let pending1 := setId s.pending genId caller
    match writeErr with
    | some e =>
      ({ s with pending := removeId pending1 genId },
       { threw := none, timerSet := some (genId, timeoutMs), wroteId := some genId,
         settlements := [Settlement.rejected caller e], clearedTimers := [genId] })
    | none =>
      ({ s with pending := pending1 },
       { threw := none, timerSet := some (genId, timeoutMs), wroteId := some genId,
         settlements := [], clearedTimers := [] })

/-- The timeout callback installed by `sendCommand`: it captured `genId`,
`timeoutMs` and the reject continuation (the caller tag); when the timer
fires it deletes the entry and rejects with the timeout message. -/
def fireTimeout (s : ClientState) (id : String) (caller : Nat) (timeoutMs : Nat) :
    ClientState × Settlement :=
  ({ s with pending := removeId s.pending id },
   Settlement.rejected caller s!"Request timeout after {timeoutMs}ms")

/-- Method `disconnect()`: if `_ws` is non-null, set `_reconnectAttempts` to the
maximum (preventing auto-reconnect), close the socket and null out `_ws`. -/
def disconnect (s : ClientState) : ClientState :=
  match s.ws with
  | some _ => { s with reconnectAttempts := maxReconnectAttempts, ws := none }
  | none => s

/-- The delays of the reconnects scheduled over `k` consecutive close events
(each failed reconnect attempt ends in another `close` event on the failed
socket, so an unexpected closure followed by failing reconnects drives the
`close` handler repeatedly). -/
def closeDelays (s : ClientState) : Nat → List Nat
  | 0 => []
  | k + 1 =>
    let step := onClose s
    match step.2.reconnectDelayMs with
    | some d => d :: closeDelays step.1 k
    | none => closeDelays step.1 k

/-! ## Configuration (config.ts)

`process.env` lookups are modelled by an `Env` record.  A `none` field models
an unset or empty (falsy) environment variable; `MCP_BRIDGE_PORT` is kept as
the parsed number since every consumer immediately parses it. -/

structure Env where
  mcpBridgeHost : Option String
  tauriDevHost : Option String
  mcpBridgePort : Option Nat
deriving DecidableEq, Repr

/-- Function `getDefaultHost()`: `MCP_BRIDGE_HOST || TAURI_DEV_HOST || "localhost"`. -/
def getDefaultHost (env : Env) : String :=
  (env.mcpBridgeHost.orElse (fun _ => env.tauriDevHost)).getD "localhost"

/-- Function `getDefaultPort()`: `MCP_BRIDGE_PORT` parsed, else 9223. -/
def getDefaultPort (env : Env) : Nat :=
  env.mcpBridgePort.getD 9223

/-- session-manager.ts `isPortExplicitlyConfigured()`:
`!!process.env.MCP_BRIDGE_PORT`. -/
def isPortExplicitlyConfigured (env : Env) : Bool :=
  env.mcpBridgePort.isSome

/-! ## App discovery (app-discovery.ts) -/

structure AppInstance where
  host : String
  port : Nat
  available : Bool
deriving DecidableEq, Repr

/-- Record `SessionInfo` of app-discovery.ts; the live `client` handle is part of
the runtime and is not inspected by any claim, so it is not repeated here. -/
structure SessionInfo where
  appId : String
  name : String
  host : String
  port : Nat
  connected : Bool
deriving DecidableEq, Repr

/-- State of one `AppDiscovery` instance.  `_maxPorts` is the constant 100
(below); `_activeSessions` is a `Map` keyed by `"{host}_{port}"`. -/
structure DiscoveryState where
  host : String
  basePort : Nat
  activeSessions : List (String × SessionInfo)
deriving DecidableEq, Repr

/-- Constant `_maxPorts = 100` of app-discovery.ts. -/
def maxPorts : Nat := 100

/-- Constructor `new AppDiscovery(host)` as called by session-manager.ts: the base port
defaults to `getDefaultPort()` and the session map starts empty. -/
def newDiscovery (env : Env) (host : String) : DiscoveryState :=
  { host := host, basePort := getDefaultPort env, activeSessions := [] }

/-- Outcome of the `Promise.race` inside `_isPortInUse`: the probe connect
either wins and succeeds, wins and fails, or loses to the 100ms timer. -/
inductive ProbeOutcome where
  | connected
  | failed
  | timedOut
deriving DecidableEq, Repr

/-- Method `_isPortInUse(port)`: true exactly when the short-lived probe connection
succeeds before the 100ms timeout; any error and the timeout itself count the
port as not in use. -/
def isPortInUse (probe : String → Nat → ProbeOutcome) (host : String) (port : Nat) : Bool :=
  probe host port = ProbeOutcome.connected

/-- Method `discoverApps()`: scan the ports `basePort + offset` for
`offset ∈ [0, maxPorts)` in ascending order, keeping those in use. -/
def discoverApps (probe : String → Nat → ProbeOutcome) (d : DiscoveryState) : List AppInstance :=
  (List.range maxPorts).filterMap (fun off =>
    let port := d.basePort + off
    if isPortInUse probe d.host port then
      some { host := d.host, port := port, available := true }
    else
      none)

/-- Method `getFirstAvailableApp()`: `apps.length > 0 ? apps[0] : null`. -/
def getFirstAvailableApp (probe : String → Nat → ProbeOutcome) (d : DiscoveryState) :
    Option AppInstance :=
  (discoverApps probe d).head?

/-- The `existing?.connected` short-circuit at the top of `connectToPort`:
the cached session for this id, provided it is marked connected. -/
def cachedLiveSession (d : DiscoveryState) (sessionId : String) : Option SessionInfo :=
  match (d.activeSessions.find? (fun e => e.1 = sessionId)).map (fun e => e.2) with
  | some ex => if ex.connected then some ex else none
  | none => none

/-- Operation `Map.set` on the session registry: at most one entry per key. -/
def setSession (sessions : List (String × SessionInfo)) (sid : String) (s : SessionInfo) :
    List (String × SessionInfo) :=
  sessions.filter (fun e => e.1 ≠ sid) ++ [(sid, s)]

/-- Whether a real connection attempt to `(host, port)` succeeds.  The
network is the environment of the program; it is a parameter of every
definition that opens a socket. -/
def Net : Type := String → Nat → Bool

/-- The fallback session name `` `Tauri App (${targetHost}:${port})` `` used
when no `appName` is supplied. -/
def defaultAppName (host : String) (port : Nat) : String :=
  s!"Tauri App ({host}:{port})"

/-- Method `connectToPort(port, appName?, host?)` of app-discovery.ts.  Returns the
updated discovery state, the list of real connection attempts made (empty on
a cache hit), and either the session or the thrown error.  On a fresh
connect the session name is `appName || defaultAppName`. -/
def connectToPort (net : Net) (d : DiscoveryState) (port : Nat)
    (appName : Option String) (host : Option String) :
    DiscoveryState × List (String × Nat) × Except String SessionInfo :=
  let targetHost := host.getD d.host
  let sessionId := s!"{targetHost}_{port}"
  match cachedLiveSession d sessionId with
  | some ex => (d, [], Except.ok ex)
  | none =>
    if net targetHost port then
      let session : SessionInfo :=
        { appId := sessionId,
          name := appName.getD (defaultAppName targetHost port),
          host := targetHost, port := port, connected := true }
      ({ d with activeSessions := setSession d.activeSessions sessionId session },
       [(targetHost, port)], Except.ok session)
    else
      (d, [(targetHost, port)], Except.error s!"Failed to connect to {targetHost}:{port}")

/-! ## Session manager (session-manager.ts) -/

/-- The `currentSession` record of session-manager.ts. -/
structure SessionRec where
  name : String
  host : String
  port : Nat
deriving DecidableEq, Repr

/-- Module-level mutable state shared by plugin-client.ts (the singleton
client) and session-manager.ts (the discovery cache and current session). -/
structure ModuleState where
  pluginClient : Option ClientState
  appDiscovery : Option DiscoveryState
  currentSession : Option SessionRec
deriving DecidableEq, Repr

/-- Function `getPluginClient(host?, port?)`: resolve the endpoint from the arguments
or the environment, create the singleton if absent, and return it. -/
def getPluginClient (env : Env) (st : ModuleState) (host : Option String) (port : Option Nat) :
    ModuleState × ClientState :=
  let resolvedHost := host.getD (getDefaultHost env)
  let resolvedPort := port.getD (getDefaultPort env)
  match st.pluginClient with
  | some c => (st, c)
  | none =>
    let c := newClient resolvedHost resolvedPort
    ({ st with pluginClient := some c }, c)

/-- Function `resetPluginClient()`: disconnect the singleton, if any, and drop the
reference (the disconnected client is unreachable afterwards). -/
def resetPluginClient (st : ModuleState) : ModuleState :=
  match st.pluginClient with
  | some c =>
    let _closed := disconnect c
    { st with pluginClient := none }
  | none => st

/-- Function `getAppDiscovery(host)`: reuse the cached instance when its host matches,
otherwise replace it with a fresh `new AppDiscovery(host)`. -/
def getAppDiscovery (env : Env) (st : ModuleState) (host : String) :
    ModuleState × DiscoveryState :=
  match st.appDiscovery with
  | some d =>
    if d.host = host then (st, d)
    else
      let d1 := newDiscovery env host
      ({ st with appDiscovery := some d1 }, d1)
  | none =>
    let d1 := newDiscovery env host
    ({ st with appDiscovery := some d1 }, d1)

/-- Function `tryConnect(host, port)` of session-manager.ts: fetch the discovery
instance for the host and connect, projecting the session to its
`{name, host, port}` fields. -/
def tryConnect (net : Net) (env : Env) (st : ModuleState) (host : String) (port : Nat) :
    ModuleState × List (String × Nat) × Except String SessionRec :=
  let got := getAppDiscovery env st host
  let conn := connectToPort net got.2 port none (some host)
  ({ got.1 with appDiscovery := some conn.1 }, conn.2.1,
   conn.2.2.map (fun s => { name := s.name, host := s.host, port := s.port }))

/-- Expression `host ?? getDefaultHost()` in the start branch. -/
def resolveHost (env : Env) (host : Option String) : String :=
  host.getD (getDefaultHost env)

/-- Expression `port ?? getDefaultPort()` in the start branch. -/
def resolvePort (env : Env) (port : Option Nat) : Nat :=
  port.getD (getDefaultPort env)

/-- Expression `port !== undefined || isPortExplicitlyConfigured()`. -/
def portIsExplicit (env : Env) (port : Option Nat) : Bool :=
  port.isSome || isPortExplicitlyConfigured env

/-- Result of the `start` branch of `manageDriverSession`: the final module
state, every real connection attempt `(host, port)` in the order it was
opened (probe connections of the discovery scan included), and the returned
string. -/
structure StartOutcome where
  finalState : ModuleState
  attempts : List (String × Nat)
  message : String
deriving DecidableEq, Repr

/-- The probe connections opened by one `discoverApps()` scan: every port of
the range on the discovery host, in scan order. -/
def probeAttempts (d : DiscoveryState) : List (String × Nat) :=
  (List.range maxPorts).map (fun off => (d.host, d.basePort + off))

/-- Template `` `Session started with app: ${name} (${host}:${port})` ``. -/
def startSuccessMsg (name : String) (host : String) (port : Nat) : String :=
  s!"Session started with app: {name} ({host}:{port})"

/-- The diagnostic returned when the port was explicitly configured and
every connection attempt failed. -/
def explicitPortFailMsg (host : String) (port : Nat) : String :=
  s!"Failed to connect to Tauri app at {host}:{port}. Port {port} was explicitly configured - auto-discovery disabled. Ensure your Tauri app is running with the MCP Bridge plugin on this port."

/-- The degraded-mode string returned when every strategy failed with a
non-explicit port. -/
def nativeFallbackMsg (host : String) (port : Nat) : String :=
  s!"Session started (native IPC mode - no Tauri app found at localhost or {host}:{port})"

/-- Strategy 4 of the start branch (reached only with a non-explicit port):
one last `tryConnect(configuredHost, configuredPort)` after a client reset;
on failure the session is cleared and the degraded-mode string returned. -/
def startStrategy4 (net : Net) (env : Env) (cfgHost : String) (cfgPort : Nat)
    (st : ModuleState) (log : List (String × Nat)) : StartOutcome :=
  let st1 := resetPluginClient st
  match tryConnect net env st1 cfgHost cfgPort with
  | (st2, log2, Except.ok s) =>
    let n := s.name
    let h := s.host
    let p := s.port
    { finalState := { st2 with currentSession := some s }, attempts := log ++ log2,
      message := startSuccessMsg n h p }
  | (st2, log2, Except.error _) =>
    { finalState := { st2 with currentSession := none }, attempts := log ++ log2,
      message := nativeFallbackMsg cfgHost cfgPort }

/-- Strategy 3 of the start branch together with the explicit-port check that
follows it: with an explicit port, discovery is skipped and the failure
diagnostic returned; otherwise the localhost discovery scan runs, the first
available app (if any) is connected to, and on failure control falls through
to strategy 4. -/
def startStrategy3 (net : Net) (probe : String → Nat → ProbeOutcome) (env : Env)
    (cfgHost : String) (cfgPort : Nat) (portExpl : Bool)
    (st : ModuleState) (log : List (String × Nat)) : StartOutcome :=
  if portExpl then
    { finalState := { st with currentSession := none }, attempts := log,
      message := explicitPortFailMsg cfgHost cfgPort }
  else
    let got := getAppDiscovery env st "localhost"
    let log1 := log ++ probeAttempts got.2
    match getFirstAvailableApp probe got.2 with
    | some firstApp =>
      let st2 := resetPluginClient got.1
      match tryConnect net env st2 "localhost" firstApp.port with
      | (st3, log3, Except.ok s) =>
        let n := s.name
        let p := s.port
        { finalState := { st3 with currentSession := some s }, attempts := log1 ++ log3,
          message := startSuccessMsg n "localhost" p }
      | (st3, log3, Except.error _) =>
        startStrategy4 net env cfgHost cfgPort st3 (log1 ++ log3)
    | none => startStrategy4 net env cfgHost cfgPort got.1 log1

/-- Strategy 2 of the start branch: `tryConnect(configuredHost,
configuredPort)`, falling through to strategy 3 on failure. -/
def startStrategy2 (net : Net) (probe : String → Nat → ProbeOutcome) (env : Env)
    (cfgHost : String) (cfgPort : Nat) (portExpl : Bool)
    (st : ModuleState) (log : List (String × Nat)) : StartOutcome :=
  match tryConnect net env st cfgHost cfgPort with
  | (st1, log1, Except.ok s) =>
    let n := s.name
    let h := s.host
    let p := s.port
    { finalState := { st1 with currentSession := some s }, attempts := log ++ log1,
      message := startSuccessMsg n h p }
  | (st1, log1, Except.error _) =>
    startStrategy3 net probe env cfgHost cfgPort portExpl st1 (log ++ log1)

/-- The `start` branch of `manageDriverSession(action, host?, port?)`: reset
the singleton client, resolve the configured endpoint, and run the ordered
strategies, starting with the loopback preference when the configured host is
not itself a loopback address. -/
def startSession (net : Net) (probe : String → Nat → ProbeOutcome) (env : Env)
    (st : ModuleState) (host : Option String) (port : Option Nat) : StartOutcome :=
  let st0 := resetPluginClient st
  let cfgHost := resolveHost env host
  let cfgPort := resolvePort env port
  let expl := portIsExplicit env port
  if cfgHost ≠ "localhost" ∧ cfgHost ≠ "127.0.0.1" then
    match tryConnect net env st0 "localhost" cfgPort with
    | (st1, log1, Except.ok s) =>
      let n := s.name
      let p := s.port
      { finalState := { st1 with currentSession := some s }, attempts := log1,
        message := startSuccessMsg n "localhost" p }
    | (st1, log1, Except.error _) =>
      startStrategy2 net probe env cfgHost cfgPort expl st1 log1
  else
    startStrategy2 net probe env cfgHost cfgPort expl st0 []

/-- The JSON shape returned by the `status` branch. -/
structure StatusOut where
  connected : Bool
  app : Option String
  host : Option String
  port : Option Nat
deriving DecidableEq, Repr

/-- The `status` branch of `manageDriverSession`: fetch the singleton client
(creating it, disconnected, when absent) and report the connected shape
exactly when the client channel is open and a current session exists. -/
def statusAction (env : Env) (st : ModuleState) : ModuleState × StatusOut :=
  let got := getPluginClient env st none none
  if got.2.isConnected then
    match got.1.currentSession with
    | some cs =>
      (got.1, { connected := true, app := some cs.name, host := some cs.host,
                port := some cs.port })
    | none => (got.1, { connected := false, app := none, host := none, port := none })
  else
    (got.1, { connected := false, app := none, host := none, port := none })

/-! ## Lemmas about the pending-request map -/

theorem hasId_eq_false_iff (p : List (String × Nat)) (i : String) :
    hasId p i = false ↔ ∀ e ∈ p, e.1 ≠ i := by
  simp [hasId]

theorem removeId_eq_self (p : List (String × Nat)) (i : String) (h : hasId p i = false) :
    removeId p i = p := by
  rw [removeId, List.filter_eq_self]
  intro e he
  simpa using (hasId_eq_false_iff p i).1 h e he

theorem mem_removeId (p : List (String × Nat)) (i : String) (e : String × Nat) :
    e ∈ removeId p i ↔ e ∈ p ∧ e.1 ≠ i := by
  simp [removeId, List.mem_filter]

theorem hasId_removeId (p : List (String × Nat)) (i : String) :
    hasId (removeId p i) i = false := by
  rw [hasId, List.any_eq_false]
  intro e he
  simp only [mem_removeId] at he
  simpa using he.2

theorem removeId_append (p q : List (String × Nat)) (i : String) :
    removeId (p ++ q) i = removeId p i ++ removeId q i := by
  simp [removeId, List.filter_append]

theorem removeId_singleton_self (i : String) (c : Nat) :
    removeId [(i, c)] i = [] := by
  simp [removeId]

theorem removeId_sublist (p : List (String × Nat)) (i : String) :
    (removeId p i).Sublist p :=
  List.filter_sublist p

theorem nodup_keys_removeId (p : List (String × Nat)) (i : String)
    (h : (p.map Prod.fst).Nodup) : ((removeId p i).map Prod.fst).Nodup :=
  h.sublist (((removeId_sublist p i)).map Prod.fst)

theorem lookupId_mem (p : List (String × Nat)) (i : String) (c : Nat)
    (h : lookupId p i = some c) : (i, c) ∈ p := by
  rw [lookupId] at h
  rcases Option.map_eq_some'.1 h with ⟨e, hfind, hsnd⟩
  have hmem := List.mem_of_find?_eq_some hfind
  have hkey : e.1 = i := by simpa using List.find?_some hfind
  have : e = (i, c) := by
    cases e
    simp_all
  rw [this] at hmem
  exact hmem

theorem lookupId_eq_some_of_mem (p : List (String × Nat)) (i : String) (c : Nat)
    (hp : (p.map Prod.fst).Nodup) (hmem : (i, c) ∈ p) : lookupId p i = some c := by
  induction p with
  | nil => simp at hmem
  | cons e t ih =>
    simp only [List.map_cons, List.nodup_cons] at hp
    rcases List.mem_cons.1 hmem with heq | ht
    · rw [← heq]
      simp [lookupId]
    · have hne : e.1 ≠ i := by
        intro hk
        exact hp.1 (by
          rw [hk]
          exact List.mem_map_of_mem Prod.fst ht)
      have := ih hp.2 ht
      rw [lookupId] at this ⊢
      rw [List.find?_cons_of_neg _ (by simpa using hne)]
      exact this

theorem hasId_true_iff (p : List (String × Nat)) (i : String) :
    hasId p i = true ↔ ∃ c, (i, c) ∈ p := by
  constructor
  · intro h
    rw [hasId, List.any_eq_true] at h
    rcases h with ⟨e, he, hk⟩
    refine ⟨e.2, ?_⟩
    have : e = (i, e.2) := by
      cases e
      simp_all
    rw [← this]
    exact he
  · intro ⟨c, hc⟩
    rw [hasId, List.any_eq_true]
    exact ⟨(i, c), hc, by simp⟩

/-! ## Claims about the transport channel (plugin-client.ts) -/

/-- Linear-backoff schedule: the delays produced by a run of consecutive
close events, as a function of the starting attempt counter. -/
theorem closeDelays_formula (k : Nat) : ∀ s : ClientState,
    closeDelays s k
      = (List.range (min k (maxReconnectAttempts - s.reconnectAttempts))).map
          (fun n => 1000 * (s.reconnectAttempts + n + 1)) := by
  induction k with
  | zero => intro s; simp [closeDelays]
  | succ k ih =>
    intro s
    by_cases ha : s.reconnectAttempts < maxReconnectAttempts
    · have h5 : maxReconnectAttempts - s.reconnectAttempts
          = (maxReconnectAttempts - (s.reconnectAttempts + 1)) + 1 := by
        unfold maxReconnectAttempts at *
        omega
      rw [h5, Nat.succ_min_succ, List.range_succ_eq_map]
      simp only [List.map_cons, List.map_map]
      have hstep : closeDelays s (k + 1)
          = 1000 * (s.reconnectAttempts + 1)
              :: closeDelays
                  { s with ws := none, reconnectAttempts := s.reconnectAttempts + 1 } k := by
        simp [closeDelays, onClose, ha]
      rw [hstep, ih]
      simp only []
      congr 1
      apply List.map_congr_left
      intro n _
      simp only [Function.comp_apply]
      omega
    · have h0 : maxReconnectAttempts - s.reconnectAttempts = 0 :=
        Nat.sub_eq_zero_of_le (Nat.le_of_not_lt ha)
      have hstep : closeDelays s (k + 1) = closeDelays { s with ws := none } k := by
        simp [closeDelays, onClose, ha]
      rw [hstep, ih, h0]
      simp

/-- C5: starting from a freshly (re)connected client (attempt counter 0), a
run of `k` consecutive unexpected closures schedules exactly
`min k 5` reconnects, the n-th after `n * 1000` ms (1s, 2s, 3s, 4s, 5s,
strictly increasing); at most 5 are ever scheduled, so a 6th attempt never
fires; and the `open` handler resets the counter to 0. -/
theorem reconnect_backoff_bound (s : ClientState) (h : s.reconnectAttempts = 0) (k : Nat) :
    closeDelays s k = (List.range (min k 5)).map (fun n => 1000 * (n + 1))
    ∧ (closeDelays s k).length ≤ 5
    ∧ List.Pairwise (· < ·) (closeDelays s k)
    ∧ (onOpen s).reconnectAttempts = 0 := by
  have hf := closeDelays_formula k s
  rw [h] at hf
  simp only [maxReconnectAttempts, Nat.sub_zero, Nat.zero_add] at hf
  refine ⟨hf, ?_, ?_, by simp [onOpen]⟩
  · rw [hf]
    simp [min_le_right]
  · rw [hf]
    exact List.Pairwise.map _ (fun a b hab => by omega) (List.pairwise_lt_range _)

/-- Witness for C5 at a concrete client and 6 close events. -/
theorem reconnect_backoff_bound_witness :
    closeDelays (newClient "localhost" 9223) 6
        = (List.range (min 6 5)).map (fun n => 1000 * (n + 1))
    ∧ (closeDelays (newClient "localhost" 9223) 6).length ≤ 5
    ∧ List.Pairwise (· < ·) (closeDelays (newClient "localhost" 9223) 6)
    ∧ (onOpen (newClient "localhost" 9223)).reconnectAttempts = 0 :=
  reconnect_backoff_bound (newClient "localhost" 9223) rfl 6

/-- C6: after `disconnect()` on a client holding a socket, the attempt
counter sits at its maximum, the close handler triggered by the closing
socket schedules no reconnect, and no run of further close events ever
schedules one. -/
theorem disconnect_prevents_reconnect (s : ClientState) (h : s.ws ≠ none) :
    (disconnect s).reconnectAttempts = maxReconnectAttempts
    ∧ (onClose (disconnect s)).2.reconnectDelayMs = none
    ∧ ∀ k, closeDelays (disconnect s) k = [] := by
  rcases hws : s.ws with _ | w
  · exact absurd hws h
  · have hd : disconnect s = { s with reconnectAttempts := maxReconnectAttempts, ws := none } := by
      simp [disconnect, hws]
    refine ⟨by rw [hd], ?_, ?_⟩
    · simp [hd, onClose]
    · intro k
      rw [closeDelays_formula k]
      simp [hd]

/-- Witness for C6 at a concrete connected client. -/
theorem disconnect_prevents_reconnect_witness :
    (disconnect { newClient "localhost" 9223 with ws := some WSReadyState.Open }).reconnectAttempts
        = maxReconnectAttempts
    ∧ (onClose (disconnect { newClient "localhost" 9223 with
          ws := some WSReadyState.Open })).2.reconnectDelayMs = none
    ∧ ∀ k, closeDelays (disconnect { newClient "localhost" 9223 with
          ws := some WSReadyState.Open }) k = [] :=
  disconnect_prevents_reconnect _ (by simp)

/-- C7: a `sendCommand` on an open channel installs a timer carrying the
generated id and the requested `timeoutMs` and registers the pending entry;
if no matching response ever arrives, the firing timer rejects the promise
with exactly `"Request timeout after {timeoutMs}ms"` and removes the entry at
that moment, leaving the map exactly as before the call (no growth across
repeated timeouts). -/
theorem request_timeout_rejects (s : ClientState) (caller : Nat) (genId : String) (tms : Nat)
    (hconn : s.isConnected = true) (hfresh : hasId s.pending genId = false) :
    (sendCommand s caller genId tms none).2.timerSet = some (genId, tms)
    ∧ (genId, caller) ∈ (sendCommand s caller genId tms none).1.pending
    ∧ (fireTimeout (sendCommand s caller genId tms none).1 genId caller tms).2
        = Settlement.rejected caller s!"Request timeout after {tms}ms"
    ∧ (fireTimeout (sendCommand s caller genId tms none).1 genId caller tms).1.pending
        = s.pending := by
  have hsend : sendCommand s caller genId tms none
      = ({ s with pending := setId s.pending genId caller },
         { threw := none, timerSet := some (genId, tms), wroteId := some genId,
           settlements := [], clearedTimers := [] }) := by
    simp [sendCommand, hconn]
  refine ⟨by rw [hsend], ?_, by rw [hsend]; rfl, ?_⟩
  · rw [hsend]
    simp [setId]
  · rw [hsend]
    show removeId (setId s.pending genId caller) genId = s.pending
    rw [setId, removeId_eq_self _ _ hfresh, removeId_append, removeId_singleton_self,
        List.append_nil, removeId_eq_self _ _ hfresh]

/-- Witness for C7 at a concrete connected client and a 5000ms timeout. -/
theorem request_timeout_rejects_witness :
    (sendCommand { newClient "localhost" 9223 with ws := some WSReadyState.Open }
        0 "req_w" 5000 none).2.timerSet = some ("req_w", 5000)
    ∧ ("req_w", 0) ∈ (sendCommand { newClient "localhost" 9223 with
          ws := some WSReadyState.Open } 0 "req_w" 5000 none).1.pending
    ∧ (fireTimeout (sendCommand { newClient "localhost" 9223 with
          ws := some WSReadyState.Open } 0 "req_w" 5000 none).1 "req_w" 0 5000).2
        = Settlement.rejected 0 "Request timeout after 5000ms"
    ∧ (fireTimeout (sendCommand { newClient "localhost" 9223 with
          ws := some WSReadyState.Open } 0 "req_w" 5000 none).1 "req_w" 0 5000).1.pending
        = ({ newClient "localhost" 9223 with ws := some WSReadyState.Open } : ClientState).pending :=
  request_timeout_rejects _ 0 "req_w" 5000 rfl rfl

/-- A client with two requests outstanding, used to exhibit the behaviour of
the close handler on a non-empty pending map. -/
def bulkClient : ClientState :=
  { ws := some WSReadyState.Open, host := "localhost", port := 9223,
    reconnectAttempts := 0, pending := [("req_a", 0), ("req_b", 1)] }

/-- C1 counterexample: with two requests outstanding, the close handler
settles no promise at all and leaves both entries in the map — it neither
rejects them with a "connection closed" error nor clears the map. -/
theorem close_handler_no_bulk_reject_cx :
    (onClose bulkClient).2.settlements = []
    ∧ (onClose bulkClient).1.pending = [("req_a", 0), ("req_b", 1)]
    ∧ bulkClient.pending.length = 2 :=
  ⟨rfl, rfl, rfl⟩

/-- C1 (amended): on channel closure the close handler rejects none of the
outstanding PendingRequests and leaves the pending-request map untouched;
each outstanding entry is settled later by its own timeout timer, which
rejects it with the timeout message and removes exactly that entry. -/
theorem close_handler_leaves_pending (s : ClientState) :
    (onClose s).1.pending = s.pending
    ∧ (onClose s).2.settlements = []
    ∧ ∀ id caller tms, (id, caller) ∈ (onClose s).1.pending →
        (fireTimeout (onClose s).1 id caller tms).2
            = Settlement.rejected caller s!"Request timeout after {tms}ms"
        ∧ hasId (fireTimeout (onClose s).1 id caller tms).1.pending id = false := by
  have h12 : (onClose s).1.pending = s.pending ∧ (onClose s).2.settlements = [] := by
    by_cases ha : s.reconnectAttempts < maxReconnectAttempts <;> simp [onClose, ha]
  refine ⟨h12.1, h12.2, ?_⟩
  intro id caller tms _
  exact ⟨rfl, hasId_removeId _ _⟩

/-- Witness for C1 (amended) at the concrete two-request client. -/
theorem close_handler_leaves_pending_witness :
    (onClose bulkClient).1.pending = bulkClient.pending
    ∧ (fireTimeout (onClose bulkClient).1 "req_a" 0 100).2
        = Settlement.rejected 0 "Request timeout after 100ms"
    ∧ hasId (fireTimeout (onClose bulkClient).1 "req_a" 0 100).1.pending "req_a" = false :=
  ⟨(close_handler_leaves_pending bulkClient).1,
   ((close_handler_leaves_pending bulkClient).2.2 "req_a" 0 100 (by decide)).1,
   ((close_handler_leaves_pending bulkClient).2.2 "req_a" 0 100 (by decide)).2⟩

/-! ## Correlation of responses to pending requests -/

theorem lookupId_isSome (p : List (String × Nat)) (i : String) :
    (lookupId p i).isSome = hasId p i := by
  cases h : hasId p i with
  | false =>
    rw [hasId, List.any_eq_false] at h
    have hf : p.find? (fun e => e.1 = i) = none :=
      List.find?_eq_none.2 (fun x hx => by simpa using h x hx)
    simp [lookupId, hf]
  | true =>
    rw [hasId, List.any_eq_true] at h
    rcases h with ⟨e, he, hpe⟩
    have hf : (p.find? (fun e => e.1 = i)).isSome := List.find?_isSome.2 ⟨e, he, hpe⟩
    simpa [lookupId] using hf

/-- The truthy id carried by one inbound payload, if any: the `message.id &&
_pendingRequests.has(message.id)` test treats a missing or empty id as
falsy. -/
def headResponseId (d : InboundData) : Option String :=
  match d with
  | InboundData.malformed => none
  | InboundData.parsed m =>
    match m.id with
    | some i => if i = "" then none else some i
    | none => none

/-- The truthy ids of a list of inbound payloads, in arrival order. -/
def responseIds (ds : List InboundData) : List String :=
  ds.filterMap headResponseId

theorem responseIds_tail (d : InboundData) (rest : List InboundData)
    (h : (responseIds (d :: rest)).Nodup) : (responseIds rest).Nodup := by
  rw [responseIds, List.filterMap_cons] at h
  cases hh : headResponseId d with
  | none =>
    rw [hh] at h
    exact h
  | some a =>
    rw [hh] at h
    exact h.of_cons

theorem mem_responseIds (ds : List InboundData) (m : WireMsg) (i : String)
    (h1 : InboundData.parsed m ∈ ds) (h2 : m.id = some i) (h3 : i ≠ "") :
    i ∈ responseIds ds := by
  rw [responseIds, List.mem_filterMap]
  refine ⟨InboundData.parsed m, h1, ?_⟩
  simp [headResponseId, h2, h3]

/-- The message handler only ever removes entries from the map. -/
theorem onMessage_pending_sublist (pending : List (String × Nat)) (d : InboundData) :
    ((onMessage pending d).1).Sublist pending := by
  cases d with
  | malformed => simp [onMessage]
  | parsed m0 =>
    rcases hmid : m0.id with _ | i
    · simp [onMessage, hmid]
    · by_cases hcond : i ≠ "" ∧ hasId pending i
      · rcases hlk : lookupId pending i with _ | c0
        · have hs := lookupId_isSome pending i
          rw [hlk, hcond.2] at hs
          simp at hs
        · simp only [onMessage, hmid, if_pos hcond, hlk]
          exact removeId_sublist pending i
      · simp [onMessage, hmid, hcond]

/-- Soundness of correlation: any resolution handed to caller `c` with
message `m` stems from a payload of the inbound sequence whose truthy id was
registered to `c` in the initial map. -/
theorem resolved_mem_sound (ds : List InboundData) : ∀ (pending : List (String × Nat))
    (c : Nat) (m : WireMsg),
    Settlement.resolved c m ∈ (runMessages pending ds).2 →
    InboundData.parsed m ∈ ds ∧ ∃ i, m.id = some i ∧ i ≠ "" ∧ (i, c) ∈ pending := by
  induction ds with
  | nil =>
    intro pending c m h
    simp [runMessages] at h
  | cons d rest ih =>
    intro pending c m h
    simp only [runMessages, List.mem_append] at h
    rcases h with hstep | htail
    · cases d with
      | malformed => simp [onMessage] at hstep
      | parsed m0 =>
        rcases hmid : m0.id with _ | i
        · simp [onMessage, hmid] at hstep
        · by_cases hcond : i ≠ "" ∧ hasId pending i
          · rcases hlk : lookupId pending i with _ | c0
            · have hs := lookupId_isSome pending i
              rw [hlk, hcond.2] at hs
              simp at hs
            · simp only [onMessage, hmid, if_pos hcond, hlk, List.mem_singleton] at hstep
              obtain ⟨hc, hm⟩ := Settlement.resolved.inj hstep
              subst hc
              subst hm
              exact ⟨List.mem_cons_self _ _, i, hmid, hcond.1, lookupId_mem _ _ _ hlk⟩
          · simp [onMessage, hmid, hcond] at hstep
    · have hsub := ih (onMessage pending d).1 c m htail
      refine ⟨List.mem_cons_of_mem _ hsub.1, ?_⟩
      rcases hsub.2 with ⟨i, h1, h2, h3⟩
      exact ⟨i, h1, h2, (onMessage_pending_sublist pending d).mem h3⟩

/-- Completeness of correlation: when the map keys and the inbound truthy
ids are free of duplicates, the caller registered under an id is resolved
with the payload carrying that id, wherever it sits in the arrival order. -/
theorem resolved_mem_complete (ds : List InboundData) : ∀ (pending : List (String × Nat)),
    (pending.map Prod.fst).Nodup → (responseIds ds).Nodup →
    ∀ (c : Nat) (m : WireMsg) (i : String),
      InboundData.parsed m ∈ ds → m.id = some i → i ≠ "" → (i, c) ∈ pending →
      Settlement.resolved c m ∈ (runMessages pending ds).2 := by
  induction ds with
  | nil =>
    intro pending _ _ c m i hmem
    simp at hmem
  | cons d rest ih =>
    intro pending hp hd c m i hmem hmid hine hpend
    simp only [runMessages, List.mem_append]
    rcases List.mem_cons.1 hmem with heq | hrest
    · left
      have hhas : hasId pending i = true := (hasId_true_iff pending i).2 ⟨c, hpend⟩
      have hc : lookupId pending i = some c := lookupId_eq_some_of_mem pending i c hp hpend
      simp [onMessage, ← heq, hmid, hine, hhas, hc]
    · right
      have hkeys : (((onMessage pending d).1).map Prod.fst).Nodup :=
        hp.sublist ((onMessage_pending_sublist pending d).map Prod.fst)
      have hd1 : (responseIds rest).Nodup := responseIds_tail d rest hd
      have hstill : (i, c) ∈ (onMessage pending d).1 := by
        cases d with
        | malformed => simpa [onMessage] using hpend
        | parsed m0 =>
          rcases hmid0 : m0.id with _ | i0
          · simpa [onMessage, hmid0] using hpend
          · by_cases hcond : i0 ≠ "" ∧ hasId pending i0
            · rcases hlk : lookupId pending i0 with _ | c0
              · have hs := lookupId_isSome pending i0
                rw [hlk, hcond.2] at hs
                simp at hs
              · have hii0 : i ≠ i0 := by
                  intro he
                  have hi0head : headResponseId (InboundData.parsed m0) = some i0 := by
                    simp [headResponseId, hmid0, hcond.1]
                  have hnodup := hd
                  rw [responseIds, List.filterMap_cons, hi0head] at hnodup
                  have hi0notin : i0 ∉ rest.filterMap headResponseId :=
                    (List.nodup_cons.1 hnodup).1
                  have hiin : i ∈ responseIds rest := mem_responseIds rest m i hrest hmid hine
                  rw [responseIds] at hiin
                  rw [he] at hiin
                  exact hi0notin hiin
                simp only [onMessage, hmid0, if_pos hcond, hlk]
                exact (mem_removeId pending i0 (i, c)).2 ⟨hpend, hii0⟩
            · simpa [onMessage, hmid0, hcond] using hpend
      exact ih (onMessage pending d).1 hkeys hd1 c m i hrest hmid hine hstill

/-- C2: for every initial pending map with distinct ids and every sequence
of inbound payloads with distinct truthy ids, a caller is resolved with a
message exactly when that message carries the id registered for that caller
— independent of the order in which the responses arrive, and never
cross-assigned between two concurrent calls. -/
theorem response_matching (pending : List (String × Nat)) (ds : List InboundData)
    (hp : (pending.map Prod.fst).Nodup) (hd : (responseIds ds).Nodup)
    (c : Nat) (m : WireMsg) :
    Settlement.resolved c m ∈ (runMessages pending ds).2 ↔
      InboundData.parsed m ∈ ds ∧ ∃ i, m.id = some i ∧ i ≠ "" ∧ (i, c) ∈ pending := by
  constructor
  · exact resolved_mem_sound ds pending c m
  · rintro ⟨h1, i, h2, h3, h4⟩
    exact resolved_mem_complete ds pending hp hd c m i h1 h2 h3 h4

/-- A response for request id `a`. -/
def msgA : WireMsg := { id := some "a", success := true, data := some "da", error := none }

/-- A response for request id `b`. -/
def msgB : WireMsg := { id := some "b", success := true, data := some "db", error := none }

/-- Witness for C2: two pending requests whose responses arrive in reverse
order are each resolved with their own response. -/
theorem response_matching_witness :
    Settlement.resolved 0 msgA
      ∈ (runMessages [("a", 0), ("b", 1)] [InboundData.parsed msgB, InboundData.parsed msgA]).2
    ∧ Settlement.resolved 1 msgB
      ∈ (runMessages [("a", 0), ("b", 1)] [InboundData.parsed msgB, InboundData.parsed msgA]).2 :=
  ⟨(response_matching [("a", 0), ("b", 1)] [InboundData.parsed msgB, InboundData.parsed msgA]
      (by decide) (by decide) 0 msgA).mpr ⟨by decide, "a", rfl, by decide, by decide⟩,
   (response_matching [("a", 0), ("b", 1)] [InboundData.parsed msgB, InboundData.parsed msgA]
      (by decide) (by decide) 1 msgB).mpr ⟨by decide, "b", rfl, by decide, by decide⟩⟩

/-! ## Claims about endpoint discovery (app-discovery.ts) -/

theorem discover_aux (probe : String → Nat → ProbeOutcome) (host : String) (b : Nat)
    (l : List Nat) :
    ((l.filterMap (fun off =>
        if isPortInUse probe host (b + off) then
          some ({ host := host, port := b + off, available := true } : AppInstance)
        else none)).map AppInstance.port)
      = (l.map (fun off => b + off)).filter (fun p => isPortInUse probe host p) := by
  induction l with
  | nil => simp
  | cons a t ih =>
    by_cases h : isPortInUse probe host (b + a) <;>
      simp [List.filterMap_cons, List.filter_cons, h, ih]

theorem discoverApps_ports (probe : String → Nat → ProbeOutcome) (d : DiscoveryState) :
    (discoverApps probe d).map AppInstance.port
      = ((List.range maxPorts).map (fun off => d.basePort + off)).filter
          (fun p => isPortInUse probe d.host p) :=
  discover_aux probe d.host d.basePort (List.range maxPorts)

theorem mem_discoverApps (probe : String → Nat → ProbeOutcome) (d : DiscoveryState)
    (a : AppInstance) :
    a ∈ discoverApps probe d ↔
      a.host = d.host ∧ a.available = true ∧ d.basePort ≤ a.port
      ∧ a.port < d.basePort + maxPorts ∧ isPortInUse probe d.host a.port = true := by
  rw [discoverApps, List.mem_filterMap]
  constructor
  · rintro ⟨off, hoff, hf⟩
    rw [List.mem_range] at hoff
    by_cases h : isPortInUse probe d.host (d.basePort + off)
    · rw [if_pos h] at hf
      have ha := Option.some.inj hf
      subst ha
      refine ⟨rfl, rfl, Nat.le_add_right _ _, ?_, h⟩
      show d.basePort + off < d.basePort + maxPorts
      omega
    · rw [if_neg h] at hf
      cases hf
  · rintro ⟨h1, h2, h3, h4, h5⟩
    refine ⟨a.port - d.basePort, ?_, ?_⟩
    · rw [List.mem_range]
      omega
    · have hport : d.basePort + (a.port - d.basePort) = a.port := by omega
      rw [hport, if_pos h5]
      obtain ⟨ah, ap, av⟩ := a
      simp only at h1 h2
      simp [h1, h2]

theorem head_filter_least (p : Nat → Bool) (l : List Nat) (hpw : List.Pairwise (· < ·) l) :
    ∀ x, (l.filter p).head? = some x →
      x ∈ l ∧ p x = true ∧ ∀ y ∈ l, p y = true → x ≤ y := by
  induction l with
  | nil =>
    intro x hx
    simp at hx
  | cons a t ih =>
    intro x hx
    rw [List.filter_cons] at hx
    by_cases hpa : p a
    · rw [if_pos hpa, List.head?_cons] at hx
      have hax := Option.some.inj hx
      subst hax
      refine ⟨List.mem_cons_self _ _, hpa, ?_⟩
      intro y hy hpy
      rcases List.mem_cons.1 hy with rfl | hyt
      · exact le_refl _
      · exact le_of_lt ((List.pairwise_cons.1 hpw).1 y hyt)
    · rw [if_neg hpa] at hx
      have htail := ih (List.pairwise_cons.1 hpw).2 x hx
      refine ⟨List.mem_cons_of_mem _ htail.1, htail.2.1, ?_⟩
      intro y hy hpy
      rcases List.mem_cons.1 hy with rfl | hyt
      · exact absurd hpy hpa
      · exact htail.2.2 y hyt hpy

theorem mem_range_map_add (b M q : Nat) :
    q ∈ (List.range M).map (fun off => b + off) ↔ b ≤ q ∧ q < b + M := by
  simp only [List.mem_map, List.mem_range]
  constructor
  · rintro ⟨off, hoff, rfl⟩
    omega
  · intro ⟨h1, h2⟩
    exact ⟨q - b, by omega, by omega⟩

theorem range_map_add_sorted (b M : Nat) :
    List.Pairwise (· < ·) ((List.range M).map (fun off => b + off)) :=
  List.Pairwise.map _ (fun x y hxy => by omega) (List.pairwise_lt_range M)

/-- C8: discovery scans exactly the ports `[basePort, basePort + 100)` in
ascending order, a port counting as live iff its probe connection succeeds
before the 100ms race timer (any error or the timeout counts as not live);
`getFirstAvailableApp` returns the live endpoint with the lowest port of the
range, and `none` when no port of the range is live. -/
theorem discovery_scan_first_available (probe : String → Nat → ProbeOutcome)
    (d : DiscoveryState) :
    (discoverApps probe d).map AppInstance.port
        = ((List.range maxPorts).map (fun off => d.basePort + off)).filter
            (fun p => isPortInUse probe d.host p)
    ∧ List.Pairwise (· < ·) ((discoverApps probe d).map AppInstance.port)
    ∧ (∀ a, getFirstAvailableApp probe d = some a →
        a.host = d.host ∧ a.available = true
        ∧ d.basePort ≤ a.port ∧ a.port < d.basePort + maxPorts
        ∧ isPortInUse probe d.host a.port = true
        ∧ ∀ q, d.basePort ≤ q → q < d.basePort + maxPorts →
            isPortInUse probe d.host q = true → a.port ≤ q)
    ∧ (getFirstAvailableApp probe d = none ↔
        ∀ q, d.basePort ≤ q → q < d.basePort + maxPorts →
          isPortInUse probe d.host q = false) := by
  refine ⟨discoverApps_ports probe d, ?_, ?_, ?_⟩
  · rw [discoverApps_ports]
    exact List.Pairwise.filter _ (range_map_add_sorted _ _)
  · intro a ha
    rw [getFirstAvailableApp] at ha
    have hmem : a ∈ discoverApps probe d := List.mem_of_mem_head? ha
    have hflds := (mem_discoverApps probe d a).1 hmem
    refine ⟨hflds.1, hflds.2.1, hflds.2.2.1, hflds.2.2.2.1, hflds.2.2.2.2, ?_⟩
    have hports : (((List.range maxPorts).map (fun off => d.basePort + off)).filter
        (fun p => isPortInUse probe d.host p)).head? = some a.port := by
      rw [← discoverApps_ports, List.head?_map, ha]
      rfl
    have hleast := head_filter_least (fun p => isPortInUse probe d.host p)
      ((List.range maxPorts).map (fun off => d.basePort + off))
      (range_map_add_sorted _ _) a.port hports
    intro q hq1 hq2 hq3
    exact hleast.2.2 q ((mem_range_map_add _ _ _).2 ⟨hq1, hq2⟩) hq3
  · rw [getFirstAvailableApp, List.head?_eq_none_iff]
    constructor
    · intro hnil q hq1 hq2
      by_contra hq3
      have : q ∈ (discoverApps probe d).map AppInstance.port := by
        rw [discoverApps_ports, List.mem_filter]
        exact ⟨(mem_range_map_add _ _ _).2 ⟨hq1, hq2⟩, by simpa using hq3⟩
      rw [hnil] at this
      simp at this
    · intro hdead
      by_contra hne
      rcases List.exists_mem_of_ne_nil _ hne with ⟨a, hmem⟩
      have hflds := (mem_discoverApps probe d a).1 hmem
      have := hdead a.port hflds.2.2.1 hflds.2.2.2.1
      rw [hflds.2.2.2.2] at this
      cases this

/-- Probe for the witness: ports 9224 and 9230 are live, everything else
times out. -/
def probeW : String → Nat → ProbeOutcome :=
  fun _ p => if p = 9224 ∨ p = 9230 then ProbeOutcome.connected else ProbeOutcome.timedOut

/-- Discovery instance for the witness, scanning from 9223 on localhost. -/
def dW : DiscoveryState := { host := "localhost", basePort := 9223, activeSessions := [] }

/-- Witness for C8: with 9224 and 9230 live in a scan starting at 9223, the
first available app sits at 9224, which is live and at most 9230. -/
theorem discovery_scan_first_available_witness :
    ({ host := "localhost", port := 9224, available := true } : AppInstance).port ≤ 9230
    ∧ isPortInUse probeW dW.host
        ({ host := "localhost", port := 9224, available := true } : AppInstance).port = true :=
  ⟨((discovery_scan_first_available probeW dW).2.2.1
      { host := "localhost", port := 9224, available := true } (by decide)).2.2.2.2.2
      9230 (by decide) (by decide) (by decide),
   ((discovery_scan_first_available probeW dW).2.2.1
      { host := "localhost", port := 9224, available := true } (by decide)).2.2.2.2.1⟩

/-! ## Claims about the singleton client and the status branch -/

/-- C10: when the singleton client exists, `getPluginClient(host, port)`
returns it unchanged, with its original endpoint, and ignores both
arguments; the arguments only take effect when the singleton is absent
(fresh process or after `resetPluginClient`, which leaves the slot empty). -/
theorem singleton_ignores_arguments (env : Env) (st : ModuleState)
    (h : Option String) (p : Option Nat) :
    (∀ c, st.pluginClient = some c → getPluginClient env st h p = (st, c))
    ∧ (st.pluginClient = none →
        getPluginClient env st h p
          = ({ st with pluginClient := some (newClient (h.getD (getDefaultHost env))
                  (p.getD (getDefaultPort env))) },
             newClient (h.getD (getDefaultHost env)) (p.getD (getDefaultPort env))))
    ∧ (resetPluginClient st).pluginClient = none := by
  refine ⟨?_, ?_, ?_⟩
  · intro c hc
    simp [getPluginClient, hc]
  · intro hn
    simp [getPluginClient, hn]
  · cases hc : st.pluginClient <;> simp [resetPluginClient, hc]

/-- Environment with no bridge variables set. -/
def defaultEnv : Env := { mcpBridgeHost := none, tauriDevHost := none, mcpBridgePort := none }

/-- Module state holding a singleton client pinned to `original:1`. -/
def pinnedState : ModuleState :=
  { pluginClient := some (newClient "original" 1), appDiscovery := none, currentSession := none }

/-- Witness for C10: with a singleton pinned to `original:1`, a call naming
`other:2` returns the pinned client and changes nothing. -/
theorem singleton_ignores_arguments_witness :
    getPluginClient defaultEnv pinnedState (some "other") (some 2)
      = (pinnedState, newClient "original" 1) :=
  (singleton_ignores_arguments defaultEnv pinnedState (some "other") (some 2)).1
    (newClient "original" 1) rfl

/-- Module state of a fresh process: no singleton, no discovery, no session. -/
def freshState : ModuleState :=
  { pluginClient := none, appDiscovery := none, currentSession := none }

/-- C9 counterexample: on a fresh module state the status branch is not a
pure read — it lazily creates the singleton client, so the module state
after the call differs from the state before it. -/
theorem status_creates_singleton_cx :
    (statusAction defaultEnv freshState).1 ≠ freshState
    ∧ (statusAction defaultEnv freshState).1.pluginClient = some (newClient "localhost" 9223)
    ∧ freshState.pluginClient = none :=
  ⟨by decide, rfl, rfl⟩

/-- C9 (amended): the status branch attempts no connection and leaves the
session record, the discovery cache and any existing singleton client
untouched, but when no singleton exists it creates one (disconnected); the
output is the connected shape with the session fields exactly when the
client channel is open and a session record exists, and the all-null shape
otherwise. -/
theorem status_frame_conditions (env : Env) (st : ModuleState) :
    (statusAction env st).1.currentSession = st.currentSession
    ∧ (statusAction env st).1.appDiscovery = st.appDiscovery
    ∧ (∀ c, st.pluginClient = some c → (statusAction env st).1 = st)
    ∧ (st.pluginClient = none →
        (statusAction env st).1.pluginClient
            = some (newClient (getDefaultHost env) (getDefaultPort env))
        ∧ (newClient (getDefaultHost env) (getDefaultPort env)).isConnected = false)
    ∧ ((statusAction env st).2.connected = true ↔
        ((getPluginClient env st none none).2.isConnected = true
          ∧ st.currentSession.isSome = true))
    ∧ (∀ cs, st.currentSession = some cs → (statusAction env st).2.connected = true →
        (statusAction env st).2
          = { connected := true, app := some cs.name, host := some cs.host,
              port := some cs.port })
    ∧ ((statusAction env st).2.connected = false →
        (statusAction env st).2
          = { connected := false, app := none, host := none, port := none }) := by
  cases hpc : st.pluginClient with
  | none =>
    have hgot : getPluginClient env st none none
        = ({ st with pluginClient := some (newClient (getDefaultHost env) (getDefaultPort env)) },
           newClient (getDefaultHost env) (getDefaultPort env)) := by
      simp [getPluginClient, hpc]
    have hconn : (newClient (getDefaultHost env) (getDefaultPort env)).isConnected = false := rfl
    have hs : statusAction env st
        = ({ st with pluginClient := some (newClient (getDefaultHost env) (getDefaultPort env)) },
           { connected := false, app := none, host := none, port := none }) := by
      simp [statusAction, hgot, hconn]
    refine ⟨by rw [hs], by rw [hs], ?_, fun _ => ⟨by rw [hs], hconn⟩, ?_, ?_, fun _ => by rw [hs]⟩
    · intro c hc
      exact Option.noConfusion hc
    · rw [hs, hgot]
      simp [hconn]
    · intro cs hcs hc
      rw [hs] at hc
      cases hc
  | some c =>
    have hgot : getPluginClient env st none none = (st, c) := by
      simp [getPluginClient, hpc]
    cases hic : c.isConnected with
    | true =>
      cases hcs : st.currentSession with
      | some cs =>
        have hs : statusAction env st
            = (st, { connected := true, app := some cs.name, host := some cs.host,
                     port := some cs.port }) := by
          simp [statusAction, hgot, hic, hcs]
        refine ⟨by rw [hs, hcs], by rw [hs], fun c2 _ => by rw [hs], ?_, ?_, ?_, ?_⟩
        · intro hn
          exact Option.noConfusion hn
        · rw [hs, hgot]
          simp [hic, hcs]
        · intro cs2 hcs2 _
          have := Option.some.inj hcs2
          rw [hs, ← this]
        · intro hfalse
          rw [hs] at hfalse
          cases hfalse
      | none =>
        have hs : statusAction env st
            = (st, { connected := false, app := none, host := none, port := none }) := by
          simp [statusAction, hgot, hic, hcs]
        refine ⟨by rw [hs, hcs], by rw [hs], fun c2 _ => by rw [hs], ?_, ?_, ?_, fun _ => by rw [hs]⟩
        · intro hn
          exact Option.noConfusion hn
        · rw [hs, hgot]
          simp [hcs]
        · intro cs2 hcs2
          exact absurd hcs2 (by simp)
    | false =>
      have hs : statusAction env st
          = (st, { connected := false, app := none, host := none, port := none }) := by
        simp [statusAction, hgot, hic]
      refine ⟨by rw [hs], by rw [hs], fun c2 _ => by rw [hs], ?_, ?_, ?_, fun _ => by rw [hs]⟩
      · intro hn
        exact Option.noConfusion hn
      · rw [hs, hgot]
        simp [hic]
      · intro cs2 hcs2 hc
        rw [hs] at hc
        cases hc

/-- A client whose channel is open, pinned to localhost:9223. -/
def openClient : ClientState :=
  { ws := some WSReadyState.Open, host := "localhost", port := 9223,
    reconnectAttempts := 0, pending := [] }

/-- The current-session record used by the C9 witness. -/
def myAppSession : SessionRec := { name := "MyApp", host := "localhost", port := 9223 }

/-- Module state with an open singleton channel and a current session. -/
def attachedState : ModuleState :=
  { pluginClient := some openClient, appDiscovery := none,
    currentSession := some myAppSession }

/-- Witness for C9 (amended) at an attached state: the state is unchanged
and the connected shape carries the session fields. -/
theorem status_frame_conditions_witness :
    (statusAction defaultEnv attachedState).1 = attachedState
    ∧ (statusAction defaultEnv attachedState).2
        = { connected := true, app := some myAppSession.name,
            host := some myAppSession.host, port := some myAppSession.port } :=
  ⟨(status_frame_conditions defaultEnv attachedState).2.2.1 openClient rfl,
   (status_frame_conditions defaultEnv attachedState).2.2.2.2.2.1
      myAppSession rfl (by decide)⟩

/-! ## Claims about the start branch (session-manager.ts) -/

/-- Invariant: no session cached in the discovery instance is marked
connected, so `connectToPort` never short-circuits on its cache and every
`tryConnect` opens a real connection. -/
def NoLiveCachedSessions (st : ModuleState) : Prop :=
  ∀ d, st.appDiscovery = some d → ∀ e ∈ d.activeSessions, e.2.connected = false

theorem cachedLiveSession_eq_none (d : DiscoveryState) (sid : String)
    (h : ∀ e ∈ d.activeSessions, e.2.connected = false) :
    cachedLiveSession d sid = none := by
  rw [cachedLiveSession]
  cases hfind : d.activeSessions.find? (fun e => e.1 = sid) with
  | none => simp [hfind]
  | some e =>
    have hc := h e (List.mem_of_find?_eq_some hfind)
    simp [hfind, hc]

theorem resetPluginClient_frame (st : ModuleState) :
    (resetPluginClient st).appDiscovery = st.appDiscovery
    ∧ (resetPluginClient st).currentSession = st.currentSession := by
  cases h : st.pluginClient <;> simp [resetPluginClient, h]

theorem noLive_resetPluginClient (st : ModuleState) (h : NoLiveCachedSessions st) :
    NoLiveCachedSessions (resetPluginClient st) := by
  intro d hd
  exact h d (by rw [← (resetPluginClient_frame st).1]; exact hd)

theorem getAppDiscovery_frame (env : Env) (st : ModuleState) (host : String) :
    ((getAppDiscovery env st host).1).pluginClient = st.pluginClient
    ∧ ((getAppDiscovery env st host).1).currentSession = st.currentSession
    ∧ ((getAppDiscovery env st host).2).host = host := by
  cases had : st.appDiscovery with
  | none => simp [getAppDiscovery, had, newDiscovery]
  | some d => by_cases hh : d.host = host <;> simp [getAppDiscovery, had, hh, newDiscovery]

theorem getAppDiscovery_sessions (env : Env) (st : ModuleState) (host : String)
    (h : NoLiveCachedSessions st) :
    ∀ e ∈ ((getAppDiscovery env st host).2).activeSessions, e.2.connected = false := by
  cases had : st.appDiscovery with
  | none =>
    intro e he
    simp [getAppDiscovery, had, newDiscovery] at he
  | some d =>
    by_cases hh : d.host = host
    · intro e he
      apply h d had
      simpa [getAppDiscovery, had, hh] using he
    · intro e he
      simp [getAppDiscovery, had, hh, newDiscovery] at he

/-- A `tryConnect` against a dead endpoint opens exactly one real connection
attempt, throws, and preserves the singleton, the session record and the
no-live-cache invariant. -/
theorem tryConnect_fails (net : Net) (env : Env) (st : ModuleState) (host : String) (port : Nat)
    (hnet : net host port = false) (h : NoLiveCachedSessions st) :
    ∃ st1 e, tryConnect net env st host port = (st1, [(host, port)], Except.error e)
      ∧ st1.pluginClient = st.pluginClient
      ∧ st1.currentSession = st.currentSession
      ∧ NoLiveCachedSessions st1 := by
  have hsess := getAppDiscovery_sessions env st host h
  have hcls : cachedLiveSession (getAppDiscovery env st host).2 s!"{host}_{port}" = none :=
    cachedLiveSession_eq_none _ _ hsess
  refine ⟨{ (getAppDiscovery env st host).1 with
      appDiscovery := some (getAppDiscovery env st host).2 },
    s!"Failed to connect to {host}:{port}", ?_, ?_, ?_, ?_⟩
  · simp [tryConnect, connectToPort, hcls, hnet, Except.map]
  · simp [(getAppDiscovery_frame env st host).1]
  · simp [(getAppDiscovery_frame env st host).2.1]
  · intro d hd
    simp only [Option.some.injEq] at hd
    rw [← hd]
    exact hsess

/-- A `tryConnect` against a live endpoint opens exactly one real connection
attempt and returns the session `(defaultAppName, host, port)`, preserving
the singleton and the session record. -/
theorem tryConnect_ok (net : Net) (env : Env) (st : ModuleState) (host : String) (port : Nat)
    (hnet : net host port = true) (h : NoLiveCachedSessions st) :
    ∃ st1, tryConnect net env st host port
        = (st1, [(host, port)],
           Except.ok { name := defaultAppName host port, host := host, port := port })
      ∧ st1.pluginClient = st.pluginClient
      ∧ st1.currentSession = st.currentSession := by
  have hsess := getAppDiscovery_sessions env st host h
  have hcls : cachedLiveSession (getAppDiscovery env st host).2 s!"{host}_{port}" = none :=
    cachedLiveSession_eq_none _ _ hsess
  refine ⟨{ (getAppDiscovery env st host).1 with
      appDiscovery := some { (getAppDiscovery env st host).2 with
        activeSessions := setSession ((getAppDiscovery env st host).2).activeSessions
          s!"{host}_{port}"
          { appId := s!"{host}_{port}", name := defaultAppName host port,
            host := host, port := port, connected := true } } }, ?_, ?_, ?_⟩
  · simp [tryConnect, connectToPort, hcls, hnet, Except.map]
  · simp [(getAppDiscovery_frame env st host).1]
  · simp [(getAppDiscovery_frame env st host).2.1]

theorem startStrategy4_attempts (net : Net) (env : Env) (cfgHost : String) (cfgPort : Nat)
    (st : ModuleState) (log : List (String × Nat)) :
    ∃ tail, (startStrategy4 net env cfgHost cfgPort st log).attempts = log ++ tail := by
  rcases htc : tryConnect net env (resetPluginClient st) cfgHost cfgPort with ⟨st2, log2, r⟩
  cases r with
  | ok s => exact ⟨log2, by simp [startStrategy4, htc]⟩
  | error e => exact ⟨log2, by simp [startStrategy4, htc]⟩

theorem startStrategy3_attempts (net : Net) (probe : String → Nat → ProbeOutcome) (env : Env)
    (cfgHost : String) (cfgPort : Nat) (portExpl : Bool)
    (st : ModuleState) (log : List (String × Nat)) :
    ∃ tail, (startStrategy3 net probe env cfgHost cfgPort portExpl st log).attempts
        = log ++ tail := by
  cases hpe : portExpl with
  | true => exact ⟨[], by simp [startStrategy3]⟩
  | false =>
    cases hfa : getFirstAvailableApp probe (getAppDiscovery env st "localhost").2 with
    | some app =>
      rcases htc : tryConnect net env (resetPluginClient (getAppDiscovery env st "localhost").1)
          "localhost" app.port with ⟨st3, log3, r⟩
      cases r with
      | ok s =>
        exact ⟨probeAttempts (getAppDiscovery env st "localhost").2 ++ log3,
          by simp [startStrategy3, hfa, htc, List.append_assoc]⟩
      | error e =>
        obtain ⟨t4, ht4⟩ := startStrategy4_attempts net env cfgHost cfgPort st3
          (log ++ (probeAttempts (getAppDiscovery env st "localhost").2 ++ log3))
        exact ⟨probeAttempts (getAppDiscovery env st "localhost").2 ++ log3 ++ t4,
          by simp [startStrategy3, hfa, htc, ht4, List.append_assoc]⟩
    | none =>
      obtain ⟨t4, ht4⟩ := startStrategy4_attempts net env cfgHost cfgPort
        (getAppDiscovery env st "localhost").1
        (log ++ probeAttempts (getAppDiscovery env st "localhost").2)
      exact ⟨probeAttempts (getAppDiscovery env st "localhost").2 ++ t4,
        by simp [startStrategy3, hfa, ht4, List.append_assoc]⟩

theorem startStrategy2_attempts (net : Net) (probe : String → Nat → ProbeOutcome) (env : Env)
    (cfgHost : String) (cfgPort : Nat) (portExpl : Bool)
    (st : ModuleState) (log : List (String × Nat)) :
    ∃ tail, (startStrategy2 net probe env cfgHost cfgPort portExpl st log).attempts
        = log ++ tail := by
  rcases htc : tryConnect net env st cfgHost cfgPort with ⟨st1, log1, r⟩
  cases r with
  | ok s => exact ⟨log1, by simp [startStrategy2, htc]⟩
  | error e =>
    obtain ⟨t3, ht3⟩ := startStrategy3_attempts net probe env cfgHost cfgPort portExpl st1
      (log ++ log1)
    exact ⟨log1 ++ t3, by simp [startStrategy2, htc, ht3, List.append_assoc]⟩

/-- C3: when the port is explicit (parameter given or `MCP_BRIDGE_PORT`
set) and both the loopback and the configured host refuse the configured
port, `start` returns the diagnostic naming the configured host and port
and stating that auto-discovery is disabled, clears the session, and never
attempts any port other than the configured one. -/
theorem explicit_port_failure (net : Net) (probe : String → Nat → ProbeOutcome) (env : Env)
    (st : ModuleState) (hostArg : Option String) (portArg : Option Nat)
    (hexpl : portIsExplicit env portArg = true)
    (hcache : NoLiveCachedSessions st)
    (hloop : net "localhost" (resolvePort env portArg) = false)
    (hcfg : net (resolveHost env hostArg) (resolvePort env portArg) = false) :
    (startSession net probe env st hostArg portArg).message
        = explicitPortFailMsg (resolveHost env hostArg) (resolvePort env portArg)
    ∧ (startSession net probe env st hostArg portArg).finalState.currentSession = none
    ∧ ∀ a ∈ (startSession net probe env st hostArg portArg).attempts,
        a.2 = resolvePort env portArg := by
  have hc0 := noLive_resetPluginClient st hcache
  by_cases hA : resolveHost env hostArg ≠ "localhost" ∧ resolveHost env hostArg ≠ "127.0.0.1"
  · obtain ⟨st1, e1, he1, hp1, hs1, hn1⟩ :=
      tryConnect_fails net env (resetPluginClient st) "localhost" (resolvePort env portArg)
        hloop hc0
    obtain ⟨st2, e2, he2, hp2, hs2, hn2⟩ :=
      tryConnect_fails net env st1 (resolveHost env hostArg) (resolvePort env portArg) hcfg hn1
    have hrun : startSession net probe env st hostArg portArg
        = { finalState := { st2 with currentSession := none },
            attempts := [("localhost", resolvePort env portArg),
              (resolveHost env hostArg, resolvePort env portArg)],
            message := explicitPortFailMsg (resolveHost env hostArg)
              (resolvePort env portArg) } := by
      simp [startSession, startStrategy2, startStrategy3, he1, he2, hexpl, hA.1, hA.2]
    refine ⟨by rw [hrun], by rw [hrun], ?_⟩
    intro a ha
    rw [hrun] at ha
    simp only [List.mem_cons, List.not_mem_nil, or_false] at ha
    rcases ha with h | h <;> simp [h]
  · obtain ⟨st1, e1, he1, hp1, hs1, hn1⟩ :=
      tryConnect_fails net env (resetPluginClient st) (resolveHost env hostArg)
        (resolvePort env portArg) hcfg hc0
    have hrun : startSession net probe env st hostArg portArg
        = { finalState := { st1 with currentSession := none },
            attempts := [(resolveHost env hostArg, resolvePort env portArg)],
            message := explicitPortFailMsg (resolveHost env hostArg)
              (resolvePort env portArg) } := by
      simp [startSession, startStrategy2, startStrategy3, he1, hexpl, hA]
    refine ⟨by rw [hrun], by rw [hrun], ?_⟩
    intro a ha
    rw [hrun] at ha
    simp only [List.mem_cons, List.not_mem_nil, or_false] at ha
    simp [ha]

/-- A network in which nothing is listening anywhere. -/
def deadNet : Net := fun _ _ => false

/-- A probe that always times out. -/
def noProbe : String → Nat → ProbeOutcome := fun _ _ => ProbeOutcome.timedOut

/-- Witness for C3 at `host 10.0.0.5, explicit port 9223` on a dead
network. -/
theorem explicit_port_failure_witness :
    (startSession deadNet noProbe defaultEnv freshState
        (some "10.0.0.5") (some 9223)).message
        = explicitPortFailMsg (resolveHost defaultEnv (some "10.0.0.5"))
            (resolvePort defaultEnv (some 9223))
    ∧ (startSession deadNet noProbe defaultEnv freshState
        (some "10.0.0.5") (some 9223)).finalState.currentSession = none
    ∧ ∀ a ∈ (startSession deadNet noProbe defaultEnv freshState
        (some "10.0.0.5") (some 9223)).attempts,
        a.2 = resolvePort defaultEnv (some 9223) :=
  explicit_port_failure deadNet noProbe defaultEnv freshState (some "10.0.0.5") (some 9223)
    rfl (fun _ hd => Option.noConfusion hd) rfl rfl

/-- The session record produced by a successful loopback attach. -/
def loopbackSession (port : Nat) : SessionRec :=
  { name := defaultAppName "localhost" port, host := "localhost", port := port }

/-- C4: with a non-loopback configured host, the very first connection
attempt of `start` is `(localhost, configuredPort)`; and if that loopback
endpoint is live, the session attaches at host `localhost` with no further
attempt and no discovery scan (the attempt list is exactly the one loopback
connect). -/
theorem loopback_tried_first (net : Net) (probe : String → Nat → ProbeOutcome) (env : Env)
    (st : ModuleState) (hostArg : Option String) (portArg : Option Nat)
    (hA : resolveHost env hostArg ≠ "localhost" ∧ resolveHost env hostArg ≠ "127.0.0.1")
    (hcache : NoLiveCachedSessions st) :
    (startSession net probe env st hostArg portArg).attempts.head?
        = some ("localhost", resolvePort env portArg)
    ∧ (net "localhost" (resolvePort env portArg) = true →
        (startSession net probe env st hostArg portArg).finalState.currentSession
            = some (loopbackSession (resolvePort env portArg))
        ∧ (startSession net probe env st hostArg portArg).attempts
            = [("localhost", resolvePort env portArg)]
        ∧ (startSession net probe env st hostArg portArg).message
            = startSuccessMsg (defaultAppName "localhost" (resolvePort env portArg))
                "localhost" (resolvePort env portArg)) := by
  have hc0 := noLive_resetPluginClient st hcache
  cases hnet : net "localhost" (resolvePort env portArg) with
  | true =>
    obtain ⟨st1, he1, hp1, hs1⟩ :=
      tryConnect_ok net env (resetPluginClient st) "localhost" (resolvePort env portArg)
        hnet hc0
    have hrun : startSession net probe env st hostArg portArg
        = { finalState := { st1 with currentSession := some (loopbackSession (resolvePort env portArg)) },
            attempts := [("localhost", resolvePort env portArg)],
            message := startSuccessMsg (defaultAppName "localhost" (resolvePort env portArg))
              "localhost" (resolvePort env portArg) } := by
      simp [startSession, he1, hA.1, hA.2, loopbackSession]
    exact ⟨by rw [hrun]; rfl, fun _ => ⟨by rw [hrun], by rw [hrun], by rw [hrun]⟩⟩
  | false =>
    obtain ⟨st1, e1, he1, hp1, hs1, hn1⟩ :=
      tryConnect_fails net env (resetPluginClient st) "localhost" (resolvePort env portArg)
        hnet hc0
    have hrun : startSession net probe env st hostArg portArg
        = startStrategy2 net probe env (resolveHost env hostArg) (resolvePort env portArg)
            (portIsExplicit env portArg) st1 [("localhost", resolvePort env portArg)] := by
      simp [startSession, he1, hA.1, hA.2]
    obtain ⟨tail, htail⟩ := startStrategy2_attempts net probe env (resolveHost env hostArg)
      (resolvePort env portArg) (portIsExplicit env portArg) st1
      [("localhost", resolvePort env portArg)]
    refine ⟨?_, fun hcontra => ?_⟩
    · rw [hrun, htail]
      simp
    · exact Bool.noConfusion hcontra

/-- A network in which only `localhost:9223` is listening. -/
def loopNet : Net := fun h p => h = "localhost" && p = 9223

/-- Witness for C4: configured host `10.0.0.5`, port 9223, only loopback
live — the session attaches to loopback with a single attempt. -/
theorem loopback_tried_first_witness :
    (startSession loopNet noProbe defaultEnv freshState
        (some "10.0.0.5") (some 9223)).attempts.head?
        = some ("localhost", resolvePort defaultEnv (some 9223))
    ∧ ((startSession loopNet noProbe defaultEnv freshState
          (some "10.0.0.5") (some 9223)).finalState.currentSession
        = some (loopbackSession (resolvePort defaultEnv (some 9223)))
      ∧ (startSession loopNet noProbe defaultEnv freshState
          (some "10.0.0.5") (some 9223)).attempts
        = [("localhost", resolvePort defaultEnv (some 9223))]
      ∧ (startSession loopNet noProbe defaultEnv freshState
          (some "10.0.0.5") (some 9223)).message
        = startSuccessMsg (defaultAppName "localhost" (resolvePort defaultEnv (some 9223)))
            "localhost" (resolvePort defaultEnv (some 9223))) :=
  ⟨(loopback_tried_first loopNet noProbe defaultEnv freshState (some "10.0.0.5") (some 9223)
      (by decide) (fun _ hd => Option.noConfusion hd)).1,
   (loopback_tried_first loopNet noProbe defaultEnv freshState (some "10.0.0.5") (some 9223)
      (by decide) (fun _ hd => Option.noConfusion hd)).2 (by decide)⟩

end TauriMcp
